import Mathlib

/-!
Verification development for the sxg-rs certificate-acquisition tooling.

Shallow embedding of:
- `src/sxg_rs/src/config.rs` (`ConfigInput`, `Config::new`, `lowercase_all`,
  `get_der`, `create_url`);
- `src/tools/src/commands/apply_acme_cert.rs` (`Opts`, `start_warp_server`,
  the orchestrating `main` with its EAB check, challenge loop and
  certificate polling loop);
- `src/tools/src/commands/gen_config/mod.rs` (`read_certificate_pem_file`,
  `read_artifact`, the artifact handling in `main`).

External collaborators (the PEM text parser, YAML parser, file system,
network fetcher, cryptographic hash and signing primitives) are embedded
as explicit parameters: fallible ones as `Except`/`Option` valued inputs,
pure ones as function arguments. Rust panics are modelled as `Option.none`
results. Side effects of the orchestrator are modelled as an explicit
event trace.
-/

/-- A parsed PEM block, as produced by the external `pem::parse_many`:
a tag (e.g. "CERTIFICATE") and the decoded DER contents (bytes). -/
structure Pem where
  tag : String
  contents : List Nat
deriving Repr, DecidableEq

/-- Embedding of `get_der` (src/sxg_rs/src/config.rs, lines 82-89), working
on the output of the external `pem::parse_many`. The Rust function loops
over the parsed blocks, returns the contents of the first block whose tag
equals `expected_tag`, and panics when none matches; the panic is modelled
as `none`. -/
def get_der (pems : List Pem) (expected_tag : String) : Option (List Nat) :=
  match pems with
  | [] => none
  | p :: rest => if p.tag = expected_tag then some p.contents else get_der rest expected_tag

/-- Rust `char::to_ascii_lowercase`: letters in the ASCII range
are shifted by 32, every other character is unchanged. -/
def asciiLowerChar (c : Char) : Char :=
  if 65 ≤ c.toNat ∧ c.toNat ≤ 90 then Char.ofNat (c.toNat + 32) else c

/-- Rust `str::to_ascii_lowercase` applied characterwise. -/
def asciiLower (s : String) : String := String.mk (s.toList.map asciiLowerChar)

/-- Embedding of `lowercase_all` (src/sxg_rs/src/config.rs, lines 56-58).
The Rust `HashSet<String>` is embedded as a `List String`; the function
maps ASCII lowercasing over the set. -/
def lowercase_all (names : List String) : List String := names.map asciiLower

/-- Rust `str::trim_matches('/')`: drop '/' from both ends. -/
def trimSlashes (s : String) : String :=
  String.mk (((s.toList.dropWhile (· = '/')).reverse.dropWhile (· = '/')).reverse)

/-- Rust `str::trim_start_matches('/')`: drop '/' from the start. -/
def trimStartSlashes (s : String) : String :=
  String.mk (s.toList.dropWhile (· = '/'))

/-- Embedding of `create_url` (src/sxg_rs/src/config.rs, lines 91-95). -/
def create_url (host reserved_path basename : String) : String :=
  "https://" ++ host ++ "/" ++ trimSlashes reserved_path ++ "/" ++ trimStartSlashes basename

/-- Embedding of `ConfigInput` (src/sxg_rs/src/config.rs, lines 20-36);
`HashSet<String>` fields are embedded as `List String`. -/
structure ConfigInput where
  cert_url_basename : String
  forward_request_headers : List String
  html_host : String
  private_key_base64 : String
  strip_request_headers : List String
  strip_response_headers : List String
  reserved_path : String
  respond_debug_info : Bool
  validity_url_basename : String
  worker_host : String
deriving Repr, DecidableEq

/-- Embedding of `Config` (src/sxg_rs/src/config.rs, lines 40-46). -/
structure Config where
  input : ConfigInput
  cert_der : List Nat
  cert_url : String
  issuer_der : List Nat
  validity_url : String
deriving Repr, DecidableEq

/-- Embedding of `Config::new` (src/sxg_rs/src/config.rs, lines 61-79).
The external YAML deserialization of `input_yaml` is embedded by taking the
already-parsed `ConfigInput`, and the external PEM text parsing by taking
the parsed block lists of the two PEM files. A panic anywhere inside
(i.e. in `get_der`) is modelled as `none`. -/
def Config.new (input : ConfigInput) (cert_pems issuer_pems : List Pem) : Option Config :=
  match get_der cert_pems ("CERTIFICATE"), get_der issuer_pems ("CERTIFICATE") with
  | some cert_der, some issuer_der =>
    some
      { cert_der := cert_der
        cert_url := create_url input.worker_host input.reserved_path input.cert_url_basename
        input :=
          { input with
            forward_request_headers := lowercase_all input.forward_request_headers
            strip_request_headers := lowercase_all input.strip_request_headers
            strip_response_headers := lowercase_all input.strip_response_headers }
        issuer_der := issuer_der
        validity_url := create_url input.html_host input.reserved_path input.validity_url_basename }
  | _, _ => none

/-- Embedding of the command-line options `Opts`
(src/tools/src/commands/apply_acme_cert.rs, lines 26-50). -/
structure Opts where
  port : Nat
  acme_server : String
  email : String
  domain : String
  acme_account_private_key_file : String
  sxg_private_key_file : String
  sxg_cert_request_file : String
  agreed_terms_of_service : String
  eab_mac_key : Option String
  eab_key_id : Option String
deriving Repr, DecidableEq

/-- An HTTP request as seen by the warp route: a method and the path split
into segments. -/
structure HttpRequest where
  method : String
  pathSegments : List String
deriving Repr, DecidableEq

/-- The server value built by `start_warp_server`
(src/tools/src/commands/apply_acme_cert.rs, lines 52-62): the bind
address, the bound port, and the routing function. `warp::path!` with
three components matches exactly three path segments; the `String`
capture binds the third segment to `_name`, which the closure ignores,
always answering with the fixed `answer` string. A request the route
rejects is `none`. -/
structure WarpServer where
  bindAddr : List Nat
  port : Nat
  handle : HttpRequest → Option String

/-- Embedding of `start_warp_server`
(src/tools/src/commands/apply_acme_cert.rs, lines 52-62). -/
def start_warp_server (port : Nat) (answer : String) : WarpServer :=
  { bindAddr := [127, 0, 0, 1]
    port := port
    handle := fun req =>
      match req.pathSegments with
      | [s1, s2, _name] =>
        if s1 = ".well-known" ∧ s2 = "acme-challenge" then some answer else none
      | _ => none }

/-- Errors surfaced by the orchestrator `main`. Distinct constructors keep
the configuration error raised by the EAB presence check apart from
errors produced by the external collaborators. -/
inductive AErr where
  | eabMismatch
  | base64Decode
  | io (msg : String)
  | net (msg : String)
deriving Repr, DecidableEq

/-- Observable events of one execution of `apply_acme_cert::main`,
in order. Network round-trips, the local responder start, and the
console output are recorded; local file operations are recorded as
`fileOp`. -/
inductive Event where
  | fileOp (name : String)
  | netFetchDirectory
  | netCreateAccount
  | netUpdateState (k : Nat)
  | challengeTokenKnown (token answer : String)
  | responderListening (port : Nat) (answer : String)
  | certPollBegin
  | printCert (pem : String)
deriving Repr, DecidableEq

/-- Whether an event is a network call. -/
def Event.isNetworkCall : Event → Bool
  | .netFetchDirectory => true
  | .netCreateAccount => true
  | .netUpdateState _ => true
  | _ => false

/-- The ACME state visible through `read_current_state` /
`get_challenge_token_and_answer` after a number of `update_state` calls:
the cached challenge token and answer (if any) and the accumulated
certificate sequence. -/
structure AcmeStateView where
  challenge : Option (String × String)
  certificates : List String
deriving Repr, DecidableEq

/-- The external collaborators of `apply_acme_cert::main`: file system,
base64 decoding, ACME directory fetch, EAB construction, account
creation, and the ACME state machine. `stateAfter k` is the state
visible after `k + 1` calls of `update_state`; `updateResult k` is the
result of the `k + 1`-th `update_state` call. -/
structure AcmeEnv where
  readPrivateKeyPem : Except String String
  createCertRequestDer : Except String (List Nat)
  base64Decode : String → Option (List Nat)
  directoryNewAccountUrl : Except String String
  createEab : String → String → String
  createAccount : Except String String
  updateResult : Nat → Except String Unit
  stateAfter : Nat → AcmeStateView

/-- Embedding of the `external_account_binding` computation
(src/tools/src/commands/apply_acme_cert.rs, lines 83-108): a `match` on
the pair of optional CLI flags. With both flags present the MAC key is
base64url-decoded, the directory is fetched (a network call) and the EAB
is built; with both absent the binding is `None`; with exactly one
present the function returns a configuration error without touching the
network. -/
def eabStep (env : AcmeEnv) (eab_key_id eab_mac_key : Option String) :
    List Event × Except AErr (Option String) :=
  match eab_key_id, eab_mac_key with
  | some kid, some mk =>
    match env.base64Decode mk with
    | none => ([], .error .base64Decode)
    | some _ =>
      match env.directoryNewAccountUrl with
      | .error e => ([.netFetchDirectory], .error (.net e))
      | .ok url => ([.netFetchDirectory], .ok (some (env.createEab kid url)))
  | none, none => ([], .ok none)
  | _, _ => ([], .error .eabMismatch)

/-- The first polling loop of `main`
(src/tools/src/commands/apply_acme_cert.rs, lines 123-130): repeatedly
call `update_state`, then `get_challenge_token_and_answer`, breaking with
the token and answer once available. `k` counts `update_state` calls
made so far; `fuel` bounds the number of iterations modelled (the Rust
loop sleeps and retries forever, so exhausted fuel is reported as a
transport-style error and only successful runs are reasoned about). -/
def challengeLoop (env : AcmeEnv) (k fuel : Nat) :
    List Event × Except AErr (Nat × String × String) :=
  match fuel with
  | 0 => ([], .error (.net "timeout"))
  | fuel + 1 =>
    match env.updateResult k with
    | .error e => ([.netUpdateState k], .error (.net e))
    | .ok _ =>
      match (env.stateAfter k).challenge with
      | some (t, a) => ([.netUpdateState k, .challengeTokenKnown t a], .ok (k + 1, t, a))
      | none =>
        let r := challengeLoop env (k + 1) fuel
        (.netUpdateState k :: r.1, r.2)

/-- The certificate polling loop of `main`
(src/tools/src/commands/apply_acme_cert.rs, lines 132-140): repeatedly
call `update_state`, read the current state, and break with a clone of
`state.certificates.last()` once the sequence is non-empty. -/
def certLoop (env : AcmeEnv) (k fuel : Nat) : List Event × Except AErr String :=
  match fuel with
  | 0 => ([], .error (.net "timeout"))
  | fuel + 1 =>
    match env.updateResult k with
    | .error e => ([.netUpdateState k], .error (.net e))
    | .ok _ =>
      match (env.stateAfter k).certificates.getLast? with
      | some cert => ([.netUpdateState k], .ok cert)
      | none =>
        let r := certLoop env (k + 1) fuel
        (.netUpdateState k :: r.1, r.2)

/-- Embedding of `apply_acme_cert::main`
(src/tools/src/commands/apply_acme_cert.rs, lines 64-144) as an event
trace together with a result. The sequencing mirrors the source: read or
create the account private key and the certificate signing request
(local file operations), run the EAB `match`, create the ACME account
(network), poll `update_state` until the challenge token and answer are
known, start the local warp responder with that answer, poll
`update_state` until a certificate appears, print it and return it.
`fileEvents` is the trace of the three local file operations performed
first (reading or creating the two private keys, writing the CSR). -/
def fileEvents (opts : Opts) : List Event :=
  [.fileOp opts.acme_account_private_key_file, .fileOp opts.sxg_private_key_file,
   .fileOp opts.sxg_cert_request_file]

def acmeMain (env : AcmeEnv) (opts : Opts) (fuel : Nat) : List Event × Except AErr String :=
  match env.readPrivateKeyPem with
  | .error e => ([.fileOp opts.acme_account_private_key_file], .error (.io e))
  | .ok _ =>
    match env.createCertRequestDer with
    | .error e => (fileEvents opts, .error (.io e))
    | .ok _ =>
      match eabStep env opts.eab_key_id opts.eab_mac_key with
      | (evs1, .error e) => (fileEvents opts ++ evs1, .error e)
      | (evs1, .ok _) =>
        match env.createAccount with
        | .error e => (fileEvents opts ++ evs1 ++ [.netCreateAccount], .error (.net e))
        | .ok _ =>
          match challengeLoop env 0 fuel with
          | (evs2, .error e) =>
            (fileEvents opts ++ evs1 ++ [.netCreateAccount] ++ evs2, .error e)
          | (evs2, .ok (k, _token, answer)) =>
            match certLoop env k fuel with
            | (evs3, .error e) =>
              (fileEvents opts ++ evs1 ++ [.netCreateAccount] ++ evs2 ++
                [.responderListening opts.port answer, .certPollBegin] ++ evs3, .error e)
            | (evs3, .ok cert) =>
              (fileEvents opts ++ evs1 ++ [.netCreateAccount] ++ evs2 ++
                [.responderListening opts.port answer, .certPollBegin] ++ evs3 ++
                [.printCert cert], .ok cert)

/-- The base64url alphabet (RFC 4648 §5): 'A'-'Z', 'a'-'z', '0'-'9',
'-', '_'. -/
def base64UrlChar (n : Nat) : Char :=
  if n < 26 then Char.ofNat (65 + n)
  else if n < 52 then Char.ofNat (97 + (n - 26))
  else if n < 62 then Char.ofNat (48 + (n - 52))
  else if n = 62 then Char.ofNat 45
  else Char.ofNat 95

/-- base64url encoding without padding (`base64::URL_SAFE_NO_PAD`),
as a character list over input bytes. -/
def base64UrlEncode : List Nat → List Char
  | [] => []
  | [b1] => [base64UrlChar (b1 / 4), base64UrlChar (b1 % 4 * 16)]
  | [b1, b2] =>
    [base64UrlChar (b1 / 4), base64UrlChar (b1 % 4 * 16 + b2 / 16),
     base64UrlChar (b2 % 16 * 4)]
  | b1 :: b2 :: b3 :: rest =>
    base64UrlChar (b1 / 4) :: base64UrlChar (b1 % 4 * 16 + b2 / 16) ::
    base64UrlChar (b2 % 16 * 4 + b3 / 64) :: base64UrlChar (b3 % 64) ::
    base64UrlEncode rest

/-- base64url encoding without padding, as a string. -/
def base64url (bytes : List Nat) : String := String.mk (base64UrlEncode bytes)

/-- Modelled from the spec: `get_challenge_token_and_answer` lives in
`sxg_rs::acme::state_machine`, which is not among the excerpted source
files (only its caller in apply_acme_cert.rs is). Per the spec, it
inspects the cached challenge data and, once a token is known, returns
`(token, key_authorization)` where the key authorization is
`token || "." || base64url(sha256(jwk_thumbprint(key)))`, computed purely
from the token and the account public key with no network call (the
empty event trace). The external SHA-256 hash and the JWK thumbprint
serialization of the account public key are parameters. -/
def get_challenge_token_and_answer {Key : Type}
    (sha256 : List Nat → List Nat) (jwk_thumbprint : Key → List Nat)
    (accountKey : Key) (challengeToken : Option String) :
    List Event × Option (String × String) :=
  ([], challengeToken.map (fun t =>
    (t, t ++ "." ++ base64url (sha256 (jwk_thumbprint accountKey)))))

/-- Rust `str::replace("\r\n", "\n")`: scan left to right, replacing
each non-overlapping occurrence of CRLF by LF. -/
def replaceCrlfChars : List Char → List Char
  | [] => []
  | c1 :: c2 :: rest =>
    if c1 = '\r' ∧ c2 = '\n' then '\n' :: replaceCrlfChars rest
    else c1 :: replaceCrlfChars (c2 :: rest)
  | [c] => [c]

/-- `text.replace("\r\n", "\n")` on strings. -/
def replaceCrlf (s : String) : String := String.mk (replaceCrlfChars s.toList)

/-- Embedding of `read_certificate_pem_file`
(src/tools/src/commands/gen_config/mod.rs, lines 95-111). The file
system read has already succeeded (its failure is a distinct earlier
error); the external `pem::parse_many` is a parameter returning either a
parse error message or the parsed blocks. The function first replaces
Windows line endings, then parses, then demands exactly one block with
tag "CERTIFICATE", returning the translated text on success. -/
def read_certificate_pem_file (parseMany : String → Except String (List Pem))
    (path text : String) : Except String String :=
  match parseMany (replaceCrlf text) with
  | .error e => .error e
  | .ok certs =>
    match certs with
    | [c] =>
      if c.tag = "CERTIFICATE" then .ok (replaceCrlf text)
      else .error ("File " ++ path ++ " is not a valid certificate PEM")
    | _ => .error ("File " ++ path ++ " is not a valid certificate PEM")

/-- Embedding of `Artifact` (src/tools/src/commands/gen_config/mod.rs,
lines 73-78); the `AcmeAccount` payload is opaque to this module and
embedded as a `String`. -/
structure Artifact where
  acme_account : Option String
  acme_private_key_instruction : Option String
  cloudflare_kv_namespace_id : Option String
deriving Repr, DecidableEq

/-- Rust `#[derive(Default)]` for `Artifact`: every `Option` field is
`None`. -/
def Artifact.default : Artifact :=
  { acme_account := none
    acme_private_key_instruction := none
    cloudflare_kv_namespace_id := none }

/-- Embedding of `read_artifact`
(src/tools/src/commands/gen_config/mod.rs, lines 168-172): read the file
(an `Except`-valued input), then parse it as YAML (the external
`serde_yaml::from_str`, a parameter). -/
def read_artifact (readFile : Except String String)
    (parseYaml : String → Except String Artifact) : Except String Artifact :=
  match readFile with
  | .error e => .error e
  | .ok content => parseYaml content

/-- Embedding of the artifact acquisition in `gen_config::main`
(src/tools/src/commands/gen_config/mod.rs, lines 180-183):
`read_artifact(..).unwrap_or_else(|_| Default::default())`. -/
def genConfigArtifact (readFile : Except String String)
    (parseYaml : String → Except String Artifact) : Artifact :=
  match read_artifact readFile parseYaml with
  | .ok a => a
  | .error _ => Artifact.default

/-- C4: for every HTTP request whose path matches
`/.well-known/acme-challenge/<token>` (in particular every GET), the
server built by `start_warp_server port answer` responds with the string
`answer` as the body, and it is bound locally (127.0.0.1) on the
supplied port. -/
theorem start_warp_server_serves_answer (port : Nat) (answer token method : String) :
    (start_warp_server port answer).handle
      { method := method, pathSegments := [".well-known", "acme-challenge", token] } =
      some answer ∧
    (start_warp_server port answer).port = port ∧
    (start_warp_server port answer).bindAddr = [127, 0, 0, 1] := by
  refine ⟨?_, rfl, rfl⟩
  simp [start_warp_server]

/-- C9: the challenge responder's body is independent of the token path
segment: any two requests to `/.well-known/acme-challenge/<a>` and
`/.well-known/acme-challenge/<b>` receive identical responses, namely
the fixed `answer` string, for all tokens `a`, `b` — the route never
compares the requested token against the challenge token. -/
theorem challenge_response_independent_of_token (port : Nat)
    (answer a b m1 m2 : String) :
    (start_warp_server port answer).handle
        { method := m1, pathSegments := [".well-known", "acme-challenge", a] } =
      (start_warp_server port answer).handle
        { method := m2, pathSegments := [".well-known", "acme-challenge", b] } ∧
    (start_warp_server port answer).handle
        { method := m1, pathSegments := [".well-known", "acme-challenge", a] } =
      some answer := by
  constructor <;> simp [start_warp_server]

/-- C2: whenever `get_challenge_token_and_answer` returns a pair, the
key authorization equals the token, followed by '.', followed by the
base64url encoding of the SHA-256 hash of the account key's JWK
thumbprint; and the call makes no network request (its event trace is
empty). -/
theorem get_challenge_token_and_answer_formula {Key : Type}
    (sha256 : List Nat → List Nat) (jwk_thumbprint : Key → List Nat)
    (accountKey : Key) (challengeToken : Option String) (t a : String)
    (h : (get_challenge_token_and_answer sha256 jwk_thumbprint accountKey
            challengeToken).2 = some (t, a)) :
    a = t ++ "." ++ base64url (sha256 (jwk_thumbprint accountKey)) ∧
    (get_challenge_token_and_answer sha256 jwk_thumbprint accountKey
      challengeToken).1 = [] := by
  refine ⟨?_, rfl⟩
  cases challengeToken with
  | none => simp [get_challenge_token_and_answer] at h
  | some tok =>
    simp [get_challenge_token_and_answer] at h
    obtain ⟨h1, h2⟩ := h
    subst h1
    exact h2.symm

/-- Witness for C2 at a concrete hash value: bytes [1, 2, 3] encode to
"AQID" in base64url. -/
theorem get_challenge_token_and_answer_formula_witness :
    "tok.AQID" = "tok" ++ "." ++ base64url [1, 2, 3] := by
  have h := get_challenge_token_and_answer_formula
    (fun _ => [1, 2, 3]) (fun _ : Unit => [9]) () (some "tok") "tok" "tok.AQID" (by decide)
  exact h.1

/-- C7: `read_certificate_pem_file` succeeds exactly when the (CRLF
normalized) content parses as a PEM list of exactly one block whose tag
is CERTIFICATE, and in that case it returns the file text with every
CRLF replaced by LF; in every other case it returns an error value
(never a panic: the function is total into `Except`). -/
theorem read_certificate_pem_file_spec
    (parseMany : String → Except String (List Pem)) (path text out : String) :
    (read_certificate_pem_file parseMany path text = .ok out ↔
      ∃ c, parseMany (replaceCrlf text) = .ok [c] ∧
        c.tag = "CERTIFICATE" ∧ out = replaceCrlf text) ∧
    ((¬ ∃ c, parseMany (replaceCrlf text) = .ok [c] ∧ c.tag = "CERTIFICATE") →
      ∃ e, read_certificate_pem_file parseMany path text = .error e) := by
  cases hp : parseMany (replaceCrlf text) with
  | error e =>
    constructor
    · simp [read_certificate_pem_file, hp]
    · intro _
      exact ⟨e, by simp [read_certificate_pem_file, hp]⟩
  | ok certs =>
    match certs with
    | [] =>
      constructor
      · simp [read_certificate_pem_file, hp]
      · intro _
        exact ⟨"File " ++ path ++ " is not a valid certificate PEM",
          by simp [read_certificate_pem_file, hp]⟩
    | [c] =>
      by_cases htag : c.tag = "CERTIFICATE"
      · constructor
        · constructor
          · intro h
            simp [read_certificate_pem_file, hp, htag] at h
            exact ⟨c, rfl, htag, h.symm⟩
          · rintro ⟨c2, hc2, htag2, hout⟩
            simp only [Except.ok.injEq, List.cons.injEq, and_true] at hc2
            simp [read_certificate_pem_file, hp, htag, hout]
        · intro hnone
          exact absurd ⟨c, rfl, htag⟩ hnone
      · constructor
        · constructor
          · intro h
            simp [read_certificate_pem_file, hp, htag] at h
          · rintro ⟨c2, hc2, htag2, hout⟩
            simp only [Except.ok.injEq, List.cons.injEq, and_true] at hc2
            exact absurd (hc2 ▸ htag2) htag
        · intro _
          exact ⟨"File " ++ path ++ " is not a valid certificate PEM",
            by simp [read_certificate_pem_file, hp, htag]⟩
    | c1 :: c2 :: cs =>
      constructor
      · simp [read_certificate_pem_file, hp]
      · intro _
        exact ⟨"File " ++ path ++ " is not a valid certificate PEM",
          by simp [read_certificate_pem_file, hp]⟩

/-- Witness for C7: a parser producing one CERTIFICATE block makes the
function return the CRLF-normalized text. -/
theorem read_certificate_pem_file_spec_witness :
    read_certificate_pem_file (fun _ => .ok [{ tag := "CERTIFICATE", contents := [1] }])
      ("p") ("a\r\nb") = .ok ("a\nb") := by
  exact (read_certificate_pem_file_spec
    (fun _ => .ok [{ tag := "CERTIFICATE", contents := [1] }]) ("p") ("a\r\nb")
    ("a\nb")).1.mpr ⟨{ tag := "CERTIFICATE", contents := [1] }, rfl, rfl, by decide⟩

/-- C10: when `read_artifact` fails — the artifact file is missing or
unreadable (the read yields an error) or its content fails to parse as
YAML — `gen_config::main` does not fail: it proceeds with the default
`Artifact`, in which every field, including the stored `acme_account`,
is `None`. -/
theorem corrupted_artifact_yields_default
    (readFile : Except String String)
    (parseYaml : String → Except String Artifact)
    (h : (∃ e, readFile = .error e) ∨
         (∃ c e, readFile = .ok c ∧ parseYaml c = .error e)) :
    genConfigArtifact readFile parseYaml = Artifact.default ∧
    (genConfigArtifact readFile parseYaml).acme_account = none ∧
    (genConfigArtifact readFile parseYaml).acme_private_key_instruction = none ∧
    (genConfigArtifact readFile parseYaml).cloudflare_kv_namespace_id = none := by
  have hd : genConfigArtifact readFile parseYaml = Artifact.default := by
    rcases h with ⟨e, he⟩ | ⟨c, e, hc, hp⟩
    · simp [genConfigArtifact, read_artifact, he]
    · simp [genConfigArtifact, read_artifact, hc, hp]
  refine ⟨hd, ?_, ?_, ?_⟩ <;> rw [hd] <;> rfl

/-- Witness for C10: an unparseable artifact file is replaced by the
all-`None` default. -/
theorem corrupted_artifact_yields_default_witness :
    genConfigArtifact (Except.ok ("bad")) (fun _ => Except.error ("yaml error")) =
      Artifact.default := by
  exact (corrupted_artifact_yields_default (Except.ok ("bad"))
    (fun _ => Except.error ("yaml error"))
    (Or.inr ⟨"bad", "yaml error", rfl, rfl⟩)).1

/-- C8: whenever `Config::new` succeeds, each of the three header sets of
the resulting inner `ConfigInput` is the ASCII-lowercased image of the
corresponding input set, and every other `ConfigInput` field is carried
over unchanged. -/
theorem config_new_lowercases_header_sets
    (input : ConfigInput) (cert_pems issuer_pems : List Pem) (cfg : Config)
    (h : Config.new input cert_pems issuer_pems = some cfg) :
    cfg.input.forward_request_headers = lowercase_all input.forward_request_headers ∧
    cfg.input.strip_request_headers = lowercase_all input.strip_request_headers ∧
    cfg.input.strip_response_headers = lowercase_all input.strip_response_headers ∧
    (∀ x, x ∈ cfg.input.forward_request_headers ↔
      ∃ y ∈ input.forward_request_headers, x = asciiLower y) ∧
    (∀ x, x ∈ cfg.input.strip_request_headers ↔
      ∃ y ∈ input.strip_request_headers, x = asciiLower y) ∧
    (∀ x, x ∈ cfg.input.strip_response_headers ↔
      ∃ y ∈ input.strip_response_headers, x = asciiLower y) ∧
    cfg.input.cert_url_basename = input.cert_url_basename ∧
    cfg.input.html_host = input.html_host ∧
    cfg.input.private_key_base64 = input.private_key_base64 ∧
    cfg.input.reserved_path = input.reserved_path ∧
    cfg.input.respond_debug_info = input.respond_debug_info ∧
    cfg.input.validity_url_basename = input.validity_url_basename ∧
    cfg.input.worker_host = input.worker_host := by
  unfold Config.new at h
  split at h
  · rename_i cert_der issuer_der hc hi
    simp only [Option.some.injEq] at h
    subst h
    refine ⟨rfl, rfl, rfl, ?_, ?_, ?_, rfl, rfl, rfl, rfl, rfl, rfl, rfl⟩ <;>
      · intro x
        simp only [lowercase_all, List.mem_map]
        constructor
        · rintro ⟨y, hy, hxy⟩
          exact ⟨y, hy, hxy.symm⟩
        · rintro ⟨y, hy, hxy⟩
          exact ⟨y, hy, hxy.symm⟩
  · exact absurd h (by simp)

/-- Witness for C8 at a concrete input: the mixed-case header name set
comes out ASCII-lowercased. -/
theorem config_new_lowercases_header_sets_witness :
    ((Config.new
      { cert_url_basename := "cert"
        forward_request_headers := ["USER-agent"]
        html_host := "h"
        private_key_base64 := ""
        strip_request_headers := ["Forwarded"]
        strip_response_headers := ["Set-Cookie"]
        reserved_path := ".sxg"
        respond_debug_info := false
        validity_url_basename := "validity"
        worker_host := "w" }
      [{ tag := "CERTIFICATE", contents := [1] }]
      [{ tag := "CERTIFICATE", contents := [2] }]).getD
        { input :=
            { cert_url_basename := ""
              forward_request_headers := []
              html_host := ""
              private_key_base64 := ""
              strip_request_headers := []
              strip_response_headers := []
              reserved_path := ""
              respond_debug_info := false
              validity_url_basename := ""
              worker_host := "" }
          cert_der := []
          cert_url := ""
          issuer_der := []
          validity_url := "" }).input.forward_request_headers =
      lowercase_all ["USER-agent"] := by
  have h := config_new_lowercases_header_sets
    { cert_url_basename := "cert"
      forward_request_headers := ["USER-agent"]
      html_host := "h"
      private_key_base64 := ""
      strip_request_headers := ["Forwarded"]
      strip_response_headers := ["Set-Cookie"]
      reserved_path := ".sxg"
      respond_debug_info := false
      validity_url_basename := "validity"
      worker_host := "w" }
    [{ tag := "CERTIFICATE", contents := [1] }]
    [{ tag := "CERTIFICATE", contents := [2] }]
    ((Config.new
      { cert_url_basename := "cert"
        forward_request_headers := ["USER-agent"]
        html_host := "h"
        private_key_base64 := ""
        strip_request_headers := ["Forwarded"]
        strip_response_headers := ["Set-Cookie"]
        reserved_path := ".sxg"
        respond_debug_info := false
        validity_url_basename := "validity"
        worker_host := "w" }
      [{ tag := "CERTIFICATE", contents := [1] }]
      [{ tag := "CERTIFICATE", contents := [2] }]).getD
        { input :=
            { cert_url_basename := ""
              forward_request_headers := []
              html_host := ""
              private_key_base64 := ""
              strip_request_headers := []
              strip_response_headers := []
              reserved_path := ""
              respond_debug_info := false
              validity_url_basename := ""
              worker_host := "" }
          cert_der := []
          cert_url := ""
          issuer_der := []
          validity_url := "" })
    (by decide)
  exact h.1

/-- `get_der` computes the first matching block, `List.find?` style. -/
lemma get_der_eq_find (pems : List Pem) (tag : String) :
    get_der pems tag = (pems.find? (fun p => p.tag == tag)).map Pem.contents := by
  induction pems with
  | nil => simp [get_der]
  | cons p rest ih =>
    by_cases hp : p.tag = tag
    · simp [get_der, hp]
    · simp [get_der, hp, ih]

/-- `get_der` panics (yields `none`) exactly when no block matches. -/
lemma get_der_eq_none_iff (pems : List Pem) (tag : String) :
    get_der pems tag = none ↔ ∀ p ∈ pems, p.tag ≠ tag := by
  induction pems with
  | nil => simp [get_der]
  | cons p rest ih =>
    by_cases hp : p.tag = tag
    · simp [get_der, hp]
    · simp [get_der, hp, ih]

/-- C6: `get_der` returns the contents of the first PEM block whose tag
equals `expected_tag` (the `List.find?` of the parsed blocks), and it
panics (modelled as `none`) exactly when no block with that tag exists;
consequently `Config::new` panics when the certificate PEM or the issuer
PEM contains no CERTIFICATE block. -/
theorem get_der_first_block_or_panic (pems : List Pem) (tag : String) :
    get_der pems tag = (pems.find? (fun p => p.tag == tag)).map Pem.contents ∧
    (get_der pems tag = none ↔ ∀ p ∈ pems, p.tag ≠ tag) ∧
    (∀ input issuer_pems, (∀ p ∈ pems, p.tag ≠ "CERTIFICATE") →
      Config.new input pems issuer_pems = none) ∧
    (∀ input cert_pems, (∀ p ∈ pems, p.tag ≠ "CERTIFICATE") →
      Config.new input cert_pems pems = none) := by
  have hnone := fun t => get_der_eq_none_iff pems t
  refine ⟨get_der_eq_find pems tag, get_der_eq_none_iff pems tag, ?_, ?_⟩
  · intro input issuer_pems hall
    have h1 : get_der pems "CERTIFICATE" = none := (hnone "CERTIFICATE").mpr hall
    unfold Config.new
    rw [h1]
  · intro input cert_pems hall
    have h1 : get_der pems "CERTIFICATE" = none := (hnone "CERTIFICATE").mpr hall
    unfold Config.new
    rw [h1]
    cases get_der cert_pems "CERTIFICATE" <;> rfl

/-- Witness for C6: a PEM list holding only a PRIVATE KEY block makes
`Config::new` panic (modelled as `none`). -/
theorem get_der_first_block_or_panic_witness :
    Config.new
      { cert_url_basename := ""
        forward_request_headers := []
        html_host := ""
        private_key_base64 := ""
        strip_request_headers := []
        strip_response_headers := []
        reserved_path := ""
        respond_debug_info := false
        validity_url_basename := ""
        worker_host := "" }
      [{ tag := "PRIVATE KEY", contents := [3] }] [] = none := by
  exact (get_der_first_block_or_panic [{ tag := "PRIVATE KEY", contents := [3] }]
    ("CERTIFICATE")).2.2.1
    { cert_url_basename := ""
      forward_request_headers := []
      html_host := ""
      private_key_base64 := ""
      strip_request_headers := []
      strip_response_headers := []
      reserved_path := ""
      respond_debug_info := false
      validity_url_basename := ""
      worker_host := "" }
    [] (by decide)

/-- On success, the challenge loop's event trace ends with the
`challengeTokenKnown` event carrying the returned token and answer. -/
lemma challengeLoop_ok_last_event (env : AcmeEnv) :
    ∀ fuel k evs k2 t a, challengeLoop env k fuel = (evs, .ok (k2, t, a)) →
      ∃ pre, evs = pre ++ [Event.challengeTokenKnown t a] := by
  intro fuel
  induction fuel with
  | zero =>
    intro k evs k2 t a h
    simp [challengeLoop] at h
  | succ fuel ih =>
    intro k evs k2 t a h
    unfold challengeLoop at h
    split at h
    · simp at h
    · split at h
      · rename_i tok ans heq
        simp only [Prod.mk.injEq, Except.ok.injEq] at h
        obtain ⟨hevs, hk, ht, ha⟩ := h
        subst ht
        subst ha
        exact ⟨[Event.netUpdateState k], hevs.symm⟩
      · simp only [Prod.mk.injEq] at h
        obtain ⟨hevs, hrec⟩ := h
        obtain ⟨pre, hpre⟩ := ih (k + 1) (challengeLoop env (k + 1) fuel).1 k2 t a
          (by rw [← hrec])
        refine ⟨Event.netUpdateState k :: pre, ?_⟩
        rw [← hevs, hpre]
        simp

/-- On success, the certificate loop stops at the first polled state
whose certificate sequence is non-empty and returns its last element. -/
lemma certLoop_ok_first_nonempty (env : AcmeEnv) :
    ∀ fuel k evs cert, certLoop env k fuel = (evs, .ok cert) →
      ∃ j, k ≤ j ∧ (env.stateAfter j).certificates.getLast? = some cert ∧
        ∀ i, k ≤ i → i < j → (env.stateAfter i).certificates = [] := by
  intro fuel
  induction fuel with
  | zero =>
    intro k evs cert h
    simp [certLoop] at h
  | succ fuel ih =>
    intro k evs cert h
    unfold certLoop at h
    split at h
    · simp at h
    · split at h
      · rename_i c heq
        simp only [Prod.mk.injEq, Except.ok.injEq] at h
        obtain ⟨_, hc⟩ := h
        subst hc
        exact ⟨k, le_refl k, heq, fun i hki hik => absurd hki (by omega)⟩
      · rename_i heq
        simp only [Prod.mk.injEq] at h
        obtain ⟨_, hrec⟩ := h
        obtain ⟨j, hj1, hj2, hj3⟩ := ih (k + 1) (certLoop env (k + 1) fuel).1 cert
          (by rw [← hrec])
        refine ⟨j, by omega, hj2, fun i hki hij => ?_⟩
        rcases Nat.eq_or_lt_of_le hki with hik | hik
        · rw [← hik]
          exact List.getLast?_eq_none_iff.mp heq
        · exact hj3 i hik hij

/-- If every `update_state` call succeeds and some polled state in reach
of the fuel has a non-empty certificate sequence, the certificate loop
terminates successfully. -/
lemma certLoop_terminates_of_nonempty (env : AcmeEnv) :
    ∀ fuel k j, k ≤ j → j < k + fuel →
      (∀ i, k ≤ i → i ≤ j → env.updateResult i = .ok ()) →
      (env.stateAfter j).certificates ≠ [] →
      ∃ evs cert, certLoop env k fuel = (evs, .ok cert) := by
  intro fuel
  induction fuel with
  | zero =>
    intro k j h1 h2
    omega
  | succ fuel ih =>
    intro k j h1 h2 hupd hne
    unfold certLoop
    rw [hupd k (le_refl k) h1]
    rcases hlast : (env.stateAfter k).certificates.getLast? with _ | c
    · have hkj : k ≠ j := by
        intro hkj
        exact hne (hkj ▸ List.getLast?_eq_none_iff.mp hlast)
      obtain ⟨evs, cert, hrec⟩ := ih (k + 1) j (by omega) (by omega)
        (fun i hi1 hi2 => hupd i (by omega) hi2) hne
      rw [hrec]
      exact ⟨_, _, rfl⟩
    · exact ⟨_, _, rfl⟩

/-- A successful run of `acmeMain` decomposes into the file operations,
the EAB events, account creation, the challenge loop events, the
responder start, the poll marker, the certificate loop events, and the
final print. -/
lemma acmeMain_ok_shape (env : AcmeEnv) (opts : Opts) (fuel : Nat)
    (evs : List Event) (cert : String)
    (h : acmeMain env opts fuel = (evs, .ok cert)) :
    ∃ (evs1 evs2 evs3 : List Event) (k : Nat) (t answer : String),
      challengeLoop env 0 fuel = (evs2, .ok (k, t, answer)) ∧
      certLoop env k fuel = (evs3, .ok cert) ∧
      (eabStep env opts.eab_key_id opts.eab_mac_key).1 = evs1 ∧
      evs = fileEvents opts ++ evs1 ++ [Event.netCreateAccount] ++ evs2 ++
        [Event.responderListening opts.port answer, Event.certPollBegin] ++ evs3 ++
        [Event.printCert cert] := by
  unfold acmeMain at h
  split at h
  · simp at h
  · split at h
    · simp at h
    · split at h
      · simp at h
      · rename_i evs1 u heab
        split at h
        · simp at h
        · split at h
          · simp at h
          · rename_i evs2 k tok answer hchal
            split at h
            · simp at h
            · rename_i evs3 cert0 hcert
              simp only [Prod.mk.injEq, Except.ok.injEq] at h
              obtain ⟨hevs, hcert0⟩ := h
              subst hcert0
              exact ⟨evs1, evs2, evs3, k, tok, answer, hchal, hcert,
                by rw [heab], hevs.symm⟩

/-- C1: if exactly one of `eab_key_id` and `eab_mac_key` is supplied,
`apply_acme_cert::main` returns an error — specifically the EAB
configuration error once the local file steps are past — with no network
call in its trace and no account created; if both are supplied or both
are absent, the EAB presence check never produces that configuration
error. -/
theorem eab_presence_check_gates_network (env : AcmeEnv) (opts : Opts) (fuel : Nat) :
    (opts.eab_key_id.isSome ≠ opts.eab_mac_key.isSome →
      (∃ e, (acmeMain env opts fuel).2 = Except.error e) ∧
      (∀ ev ∈ (acmeMain env opts fuel).1, ev.isNetworkCall = false) ∧
      Event.netCreateAccount ∉ (acmeMain env opts fuel).1 ∧
      (env.readPrivateKeyPem.isOk → env.createCertRequestDer.isOk →
        (acmeMain env opts fuel).2 = Except.error AErr.eabMismatch)) ∧
    (opts.eab_key_id.isSome = opts.eab_mac_key.isSome →
      (eabStep env opts.eab_key_id opts.eab_mac_key).2 ≠
        Except.error AErr.eabMismatch) := by
  constructor
  · intro hmix
    have heab : eabStep env opts.eab_key_id opts.eab_mac_key =
        ([], .error .eabMismatch) := by
      rcases hkid : opts.eab_key_id with _ | kid
      · rcases hmk : opts.eab_mac_key with _ | mk
        · rw [hkid, hmk] at hmix
          simp at hmix
        · rfl
      · rcases hmk : opts.eab_mac_key with _ | mk
        · rfl
        · rw [hkid, hmk] at hmix
          simp at hmix
    unfold acmeMain
    cases hrd : env.readPrivateKeyPem with
    | error e =>
      refine ⟨⟨.io e, rfl⟩, ?_, by simp, by simp [Except.isOk, Except.toBool, hrd]⟩
      intro ev hev
      simp at hev
      subst hev
      rfl
    | ok pk =>
      cases hcsr : env.createCertRequestDer with
      | error e =>
        refine ⟨⟨.io e, rfl⟩, ?_, by simp [fileEvents], ?_⟩
        · intro ev hev
          simp [fileEvents] at hev
          rcases hev with h1 | h1 | h1 <;> subst h1 <;> rfl
        · intro _ hcsr2
          simp [Except.isOk, Except.toBool] at hcsr2
      | ok der =>
        rw [heab]
        refine ⟨⟨.eabMismatch, rfl⟩, ?_, by simp [fileEvents], fun _ _ => rfl⟩
        intro ev hev
        simp [fileEvents] at hev
        rcases hev with h1 | h1 | h1 <;> subst h1 <;> rfl
  · intro hsame
    rcases hkid : opts.eab_key_id with _ | kid
    · rcases hmk : opts.eab_mac_key with _ | mk
      · simp [eabStep]
      · rw [hkid, hmk] at hsame
        simp at hsame
    · rcases hmk : opts.eab_mac_key with _ | mk
      · rw [hkid, hmk] at hsame
        simp at hsame
      · rcases hb : env.base64Decode mk with _ | bytes
        · simp [eabStep, hb]
        · rcases hd : env.directoryNewAccountUrl with e | url
          · simp [eabStep, hb, hd]
          · simp [eabStep, hb, hd]

/-- A concrete environment in which every external collaborator
succeeds: the challenge is known after the first `update_state` and two
certificates have accumulated. -/
def sampleEnv : AcmeEnv :=
  { readPrivateKeyPem := .ok "KEYPEM"
    createCertRequestDer := .ok [48]
    base64Decode := fun _ => some [0]
    directoryNewAccountUrl := .ok "https://acme.test/new-account"
    createEab := fun kid url => kid ++ "@" ++ url
    createAccount := .ok "https://acme.test/account/1"
    updateResult := fun _ => .ok ()
    stateAfter := fun _ =>
      { challenge := some ("tok", "ans"), certificates := ["PEM1", "PEM2"] } }

/-- Concrete options supplying only `eab_key_id`. -/
def sampleOptsEabKeyIdOnly : Opts :=
  { port := 8080
    acme_server := "https://acme.test/dir"
    email := "admin@example.org"
    domain := "example.org"
    acme_account_private_key_file := "acme_account_private_key.pem"
    sxg_private_key_file := "privkey.pem"
    sxg_cert_request_file := "cert.csr"
    agreed_terms_of_service := "https://acme.test/tos"
    eab_mac_key := none
    eab_key_id := some "kid" }

/-- Concrete options supplying neither EAB flag. -/
def sampleOptsNoEab : Opts :=
  { port := 8080
    acme_server := "https://acme.test/dir"
    email := "admin@example.org"
    domain := "example.org"
    acme_account_private_key_file := "acme_account_private_key.pem"
    sxg_private_key_file := "privkey.pem"
    sxg_cert_request_file := "cert.csr"
    agreed_terms_of_service := "https://acme.test/tos"
    eab_mac_key := none
    eab_key_id := none }

/-- Witness for C1: with only `eab-key-id` supplied, `main` errors and
its event trace contains no network call. -/
theorem eab_presence_check_gates_network_witness :
    (∃ e, (acmeMain sampleEnv sampleOptsEabKeyIdOnly 1).2 = Except.error e) ∧
    (∀ ev ∈ (acmeMain sampleEnv sampleOptsEabKeyIdOnly 1).1, ev.isNetworkCall = false) := by
  have h := (eab_presence_check_gates_network sampleEnv sampleOptsEabKeyIdOnly 1).1
    (by decide)
  exact ⟨h.1, h.2.1⟩

/-- C3: when `main` succeeds, the certificate it prints to standard
output is the value it returns `Ok` for, and that value is the last
element of the certificate sequence of the first polled state (from the
certificate loop's start index `k`) whose sequence is non-empty — all
earlier polled states have an empty sequence, so the loop terminates
exactly when the sequence becomes non-empty; conversely, with
successful updates and enough fuel, a non-empty sequence in reach makes
the loop terminate. -/
theorem cert_poll_prints_latest (env : AcmeEnv) (opts : Opts) (fuel : Nat)
    (evs : List Event) (cert : String)
    (h : acmeMain env opts fuel = (evs, Except.ok cert)) :
    Event.printCert cert ∈ evs ∧
    (∃ k j, k ≤ j ∧ (env.stateAfter j).certificates.getLast? = some cert ∧
      ∀ i, k ≤ i → i < j → (env.stateAfter i).certificates = []) ∧
    (∀ k2 j f2, k2 ≤ j → j < k2 + f2 →
      (∀ i, k2 ≤ i → i ≤ j → env.updateResult i = Except.ok ()) →
      (env.stateAfter j).certificates ≠ [] →
      ∃ evs4 c2, certLoop env k2 f2 = (evs4, Except.ok c2)) := by
  obtain ⟨evs1, evs2, evs3, k, t, answer, hchal, hcert, heab, hevs⟩ :=
    acmeMain_ok_shape env opts fuel evs cert h
  refine ⟨?_, ?_, ?_⟩
  · rw [hevs]
    simp
  · obtain ⟨j, hj1, hj2, hj3⟩ := certLoop_ok_first_nonempty env fuel k evs3 cert hcert
    exact ⟨k, j, hj1, hj2, hj3⟩
  · intro k2 j f2 h1 h2 hupd hne
    exact certLoop_terminates_of_nonempty env f2 k2 j h1 h2 hupd hne

/-- Witness for C3: the printed and returned certificate is "PEM2", the
last element of the sample state's certificate sequence. -/
theorem cert_poll_prints_latest_witness :
    Event.printCert "PEM2" ∈ (acmeMain sampleEnv sampleOptsNoEab 1).1 := by
  exact (cert_poll_prints_latest sampleEnv sampleOptsNoEab 1
    (acmeMain sampleEnv sampleOptsNoEab 1).1 "PEM2" (by rfl)).1

/-- The challenge loop's trace holds only `update_state` network calls
and the final token event — never a responder event. -/
lemma challengeLoop_no_responder (env : AcmeEnv) :
    ∀ fuel k p a, Event.responderListening p a ∉ (challengeLoop env k fuel).1 := by
  intro fuel
  induction fuel with
  | zero =>
    intro k p a
    simp [challengeLoop]
  | succ fuel ih =>
    intro k p a
    unfold challengeLoop
    split
    · simp
    · split
      · simp
      · simpa using ih (k + 1) p a

/-- The certificate loop's trace holds only `update_state` network
calls — never a responder event. -/
lemma certLoop_no_responder (env : AcmeEnv) :
    ∀ fuel k p a, Event.responderListening p a ∉ (certLoop env k fuel).1 := by
  intro fuel
  induction fuel with
  | zero =>
    intro k p a
    simp [certLoop]
  | succ fuel ih =>
    intro k p a
    unfold certLoop
    split
    · simp
    · split
      · simp
      · simpa using ih (k + 1) p a

/-- The EAB step's trace holds at most the directory fetch — never a
responder event. -/
lemma eabStep_no_responder (env : AcmeEnv) (kid mk : Option String) (p : Nat)
    (a : String) : Event.responderListening p a ∉ (eabStep env kid mk).1 := by
  rcases kid with _ | kidv
  · rcases mk with _ | mkv
    · simp [eabStep]
    · simp [eabStep]
  · rcases mk with _ | mkv
    · simp [eabStep]
    · rcases hb : env.base64Decode mkv with _ | bytes
      · simp [eabStep, hb]
      · rcases hd : env.directoryNewAccountUrl with e | url
        · simp [eabStep, hb, hd]
        · simp [eabStep, hb, hd]

/-- The token event, the responder event and the poll marker, in order,
form a sublist of any trace shaped like a run that reached the
certificate polling loop. -/
lemma ordered_events_sublist (port : Nat) (A pre tail : List Event) (t a : String) :
    [Event.challengeTokenKnown t a, Event.responderListening port a,
     Event.certPollBegin].Sublist
      (A ++ (pre ++ [Event.challengeTokenKnown t a]) ++
        [Event.responderListening port a, Event.certPollBegin] ++ tail) := by
  have hsub := List.Sublist.append
    (List.sublist_append_right (A ++ pre) [Event.challengeTokenKnown t a])
    (List.sublist_append_left
      [Event.responderListening port a, Event.certPollBegin] tail)
  simp only [List.append_assoc] at hsub ⊢
  exact hsub

/-- C5: in every execution of `main` — succeeding or failing, with no
assumption on the outcome — if the responder-listening event occurs in
the trace at all, then the challenge loop had returned the token and
that exact answer (`get_challenge_token_and_answer` returned `Some`),
the responder is on the configured port, and the trace contains the
events in strict order: challenge token known, then responder
listening, then the certificate polling loop beginning. -/
theorem responder_between_token_and_cert_poll (env : AcmeEnv) (opts : Opts)
    (fuel : Nat) (evs : List Event) (res : Except AErr String) (p : Nat) (a : String)
    (hmain : acmeMain env opts fuel = (evs, res))
    (h : Event.responderListening p a ∈ evs) :
    p = opts.port ∧
    ∃ evs2 k t, challengeLoop env 0 fuel = (evs2, Except.ok (k, t, a)) ∧
      [Event.challengeTokenKnown t a,
       Event.responderListening opts.port a,
       Event.certPollBegin].Sublist evs := by
  unfold acmeMain at hmain
  split at hmain
  · simp only [Prod.mk.injEq] at hmain
    rw [← hmain.1] at h
    simp at h
  · split at hmain
    · simp only [Prod.mk.injEq] at hmain
      rw [← hmain.1] at h
      simp [fileEvents] at h
    · split at hmain
      · rename_i evs1 e heab
        simp only [Prod.mk.injEq] at hmain
        rw [← hmain.1] at h
        have h1 := eabStep_no_responder env opts.eab_key_id opts.eab_mac_key p a
        rw [heab] at h1
        simp [fileEvents] at h
        exact absurd h h1
      · rename_i evs1 u heab
        have h1 := eabStep_no_responder env opts.eab_key_id opts.eab_mac_key p a
        rw [heab] at h1
        split at hmain
        · simp only [Prod.mk.injEq] at hmain
          rw [← hmain.1] at h
          simp [fileEvents] at h
          exact absurd h h1
        · split at hmain
          · rename_i evs2 e hchal
            simp only [Prod.mk.injEq] at hmain
            rw [← hmain.1] at h
            have h2 := challengeLoop_no_responder env fuel 0 p a
            rw [hchal] at h2
            simp [fileEvents] at h
            rcases h with h | h
            · exact absurd h h1
            · exact absurd h h2
          · rename_i evs2 k tok answer hchal
            have h2 := challengeLoop_no_responder env fuel 0 p a
            rw [hchal] at h2
            split at hmain
            · rename_i evs3 e hcert
              simp only [Prod.mk.injEq] at hmain
              rw [← hmain.1] at h ⊢
              have h3 := certLoop_no_responder env fuel k p a
              rw [hcert] at h3
              simp [fileEvents] at h
              rcases h with h | h | ⟨hp, ha⟩ | h
              · exact absurd h h1
              · exact absurd h h2
              · subst hp
                subst ha
                refine ⟨rfl, evs2, k, tok, hchal, ?_⟩
                obtain ⟨pre, hpre⟩ :=
                  challengeLoop_ok_last_event env fuel 0 evs2 k tok a hchal
                rw [hpre]
                simpa [List.append_assoc] using ordered_events_sublist opts.port
                  (fileEvents opts ++ evs1 ++ [Event.netCreateAccount]) pre evs3 tok a
              · exact absurd h h3
            · rename_i evs3 cert hcert
              simp only [Prod.mk.injEq] at hmain
              rw [← hmain.1] at h ⊢
              have h3 := certLoop_no_responder env fuel k p a
              rw [hcert] at h3
              simp [fileEvents] at h
              rcases h with h | h | ⟨hp, ha⟩ | h
              · exact absurd h h1
              · exact absurd h h2
              · subst hp
                subst ha
                refine ⟨rfl, evs2, k, tok, hchal, ?_⟩
                obtain ⟨pre, hpre⟩ :=
                  challengeLoop_ok_last_event env fuel 0 evs2 k tok a hchal
                rw [hpre]
                simpa [List.append_assoc] using ordered_events_sublist opts.port
                  (fileEvents opts ++ evs1 ++ [Event.netCreateAccount]) pre
                  (evs3 ++ [Event.printCert cert]) tok a
              · exact absurd h h3

/-- Witness for C5 on the sample run: the responder event occurs, and
the theorem yields the port match and the ordered events. -/
theorem responder_between_token_and_cert_poll_witness :
    8080 = sampleOptsNoEab.port ∧
    ∃ evs2 k t, challengeLoop sampleEnv 0 1 = (evs2, Except.ok (k, t, "ans")) ∧
      [Event.challengeTokenKnown t "ans",
       Event.responderListening sampleOptsNoEab.port "ans",
       Event.certPollBegin].Sublist (acmeMain sampleEnv sampleOptsNoEab 1).1 := by
  exact responder_between_token_and_cert_poll sampleEnv sampleOptsNoEab 1
    (acmeMain sampleEnv sampleOptsNoEab 1).1
    (acmeMain sampleEnv sampleOptsNoEab 1).2 8080 "ans" (by rfl) (by decide)
